import Mathlib

/-!
Shallow embedding of the watchtower container client
(src/container/client.go) and proofs about its behaviour.

The Docker daemon is modelled as a record of oracle functions (one per
daemon capability used by the code).  Each embedded operation returns its
Go result (errors are `Option Err`, with `none` standing for the Go `nil`
error) together with the list of daemon calls it issued, so that
frame-effect properties (which calls happen, and how often) can be stated.
-/

namespace Watchtower

/-- Errors flowing through the client.  `notFound` models the daemon
not-found error, `generic n` any other daemon or transport error, and
`couldNotBeRemoved name id` the error built by `StopContainer` with
`fmt.Errorf` when removal cannot be confirmed. -/
inductive Err where
  | notFound : Err
  | generic : Nat → Err
  | couldNotBeRemoved : String → String → Err
deriving DecidableEq, Repr

/-- Endpoint settings of one network attachment (aliases, static IP, ...),
modelling `network.EndpointSettings`. -/
structure EndpointSettings where
  aliases : List String
  ipAddress : String
deriving DecidableEq, Repr

/-- A Container snapshot, modelling the fields of `container.Container`
(its `containerInfo` and `imageInfo`) that the client functions read. -/
structure Container where
  id : String
  name : String
  stopSignal : String
  autoRemove : Bool
  networkMode : String
  networks : List (String × EndpointSettings)
  imageName : String
  imageID : String
deriving DecidableEq, Repr

/-- The constant `defaultStopSignal` of client.go. -/
def defaultStopSignal : String := "SIGTERM"

/-- One daemon call, as recorded in a trace. -/
inductive Call where
  | containerKill : String → String → Call
  | containerInspect : String → Call
  | containerRemove : String → Bool → Bool → Call
  | containerCreate : String → List String → Call
  | networkDisconnect : String → String → Bool → Call
  | networkConnect : String → String → EndpointSettings → Call
  | containerStart : String → Call
  | imagePull : String → String → Call
  | imageInspect : String → Call
  | execCreate : String → Call
  | execAttach : String → Call
  | execStart : String → Call
  | execInspect : String → Call
deriving DecidableEq, Repr

/-- Daemon oracle for the Shutdown Sequencer.  `containerInspect` is
indexed by a poll instant (the daemon state evolves while the client
polls) and yields the `State.Running` flag or an inspection error. -/
structure StopApi where
  containerKill : String → String → Option Err
  containerRemove : String → Bool → Bool → Option Err
  containerInspect : Nat → String → Except Err Bool

/-- Embedding of `waitForStop` (client.go:311).  `fuel` is the number of
poll iterations the timeout allows and `t` the current poll instant; the
Go loop returns `nil` when the timeout fires first, the inspection error
if inspecting fails, and `nil` as soon as the container is not running.
Returns the Go error, the instant after the wait, and the issued calls. -/
def waitForStop (api : StopApi) (c : Container) : Nat → Nat → Option Err × Nat × List Call
  | t, 0 => (none, t, [])
  | t, fuel + 1 =>
    match api.containerInspect t c.id with
    | .error e => (some e, t + 1, [Call.containerInspect c.id])
    | .ok running =>
      if running then
        let rest := waitForStop api c (t + 1) fuel
        (rest.1, rest.2.1, Call.containerInspect c.id :: rest.2.2)
      else
        (none, t + 1, [Call.containerInspect c.id])

/-- Embedding of `StopContainer` (client.go:100).  Sends the stop signal
via kill, waits (ignoring the result), removes the container unless it is
auto-remove, waits again, and treats an error from the second wait as the
confirmation that the container is gone. -/
def StopContainer (api : StopApi) (c : Container) (fuel : Nat) : Option Err × List Call :=
  let signal := if c.stopSignal = "" then defaultStopSignal else c.stopSignal
  match api.containerKill c.id signal with
  | some e => (some e, [Call.containerKill c.id signal])
  | none =>
    let w1 := waitForStop api c 0 fuel
    let removeStep : Option Err × List Call :=
      if c.autoRemove then (none, [])
      else (api.containerRemove c.id true false, [Call.containerRemove c.id true false])
    match removeStep.1 with
    | some e => (some e, Call.containerKill c.id signal :: w1.2.2 ++ removeStep.2)
    | none =>
      let w2 := waitForStop api c w1.2.1 fuel
      let trace := Call.containerKill c.id signal :: w1.2.2 ++ removeStep.2 ++ w2.2.2
      match w2.1 with
      | none => (some (Err.couldNotBeRemoved c.name c.id), trace)
      | some _ => (none, trace)

/-- Daemon oracle for the Recreation Engine.  `containerCreate` receives
the name and the (single-entry) networking config and yields the new
container id; the other fields mirror the network and start calls. -/
structure StartApi where
  containerCreate : String → List (String × EndpointSettings) → Except Err String
  networkDisconnect : String → String → Bool → Option Err
  networkConnect : String → String → EndpointSettings → Option Err
  containerStart : String → Option Err

/-- Embedding of the `simpleNetworkConfig` closure of `StartContainer`
(client.go:141): keep exactly one entry of the endpoints mapping (the Go
`for ... break` over the map, the list order standing for the map
iteration order). -/
def simpleNetworkConfig (networkConfig : List (String × EndpointSettings)) :
    List (String × EndpointSettings) :=
  match networkConfig with
  | [] => []
  | e :: _ => [e]

/-- The first loop of `StartContainer` (client.go:161): force-disconnect
the new container from every network of the given config, aborting on the
first error. -/
def disconnectAll (api : StartApi) (newID : String) :
    List (String × EndpointSettings) → Option Err × List Call
  | [] => (none, [])
  | (k, _) :: rest =>
    match api.networkDisconnect k newID true with
    | some e => (some e, [Call.networkDisconnect k newID true])
    | none =>
      let r := disconnectAll api newID rest
      (r.1, Call.networkDisconnect k newID true :: r.2)

/-- The second loop of `StartContainer` (client.go:168): connect the new
container to every network of the given config with its endpoint
settings, aborting on the first error. -/
def connectAll (api : StartApi) (newID : String) :
    List (String × EndpointSettings) → Option Err × List Call
  | [] => (none, [])
  | (k, v) :: rest =>
    match api.networkConnect k newID v with
    | some e => (some e, [Call.networkConnect k newID v])
    | none =>
      let r := connectAll api newID rest
      (r.1, Call.networkConnect k newID v :: r.2)

/-- Test of `hostConfig.NetworkMode.IsHost()`: the network mode string
equals "host". -/
def isHostMode (c : Container) : Bool := c.networkMode = "host"

/-- Embedding of `StartContainer` (client.go:134).  Creates the container
with the single-entry network config; unless the network mode is host
mode, disconnects that one network and reconnects all original networks;
then starts the container.  The Go result pair `(string, error)` becomes
`String × Option Err` (the Go code returns `""` with every error). -/
def StartContainer (api : StartApi) (c : Container) : (String × Option Err) × List Call :=
  let networkConfig := c.networks
  let simple := simpleNetworkConfig networkConfig
  let createCall := Call.containerCreate c.name (simple.map Prod.fst)
  match api.containerCreate c.name simple with
  | .error e => (("", some e), [createCall])
  | .ok newID =>
    if isHostMode c then
      match api.containerStart newID with
      | some e => (("", some e), [createCall, Call.containerStart newID])
      | none => ((newID, none), [createCall, Call.containerStart newID])
    else
      let d := disconnectAll api newID simple
      match d.1 with
      | some e => (("", some e), createCall :: d.2)
      | none =>
        let cn := connectAll api newID networkConfig
        match cn.1 with
        | some e => (("", some e), createCall :: d.2 ++ cn.2)
        | none =>
          match api.containerStart newID with
          | some e => (("", some e), createCall :: d.2 ++ cn.2 ++ [Call.containerStart newID])
          | none => ((newID, none), createCall :: d.2 ++ cn.2 ++ [Call.containerStart newID])

/-- Effect of one daemon call on the network membership of the container
`id`: disconnect removes the network, connect adds it. -/
def applyNetCall (id : String) (membership : List String) : Call → List String
  | Call.networkDisconnect k cid _ =>
      if cid = id then membership.erase k else membership
  | Call.networkConnect k cid _ =>
      if cid = id then (if k ∈ membership then membership else membership ++ [k])
      else membership
  | _ => membership

/-- Network membership of container `id` after a trace of calls, starting
from the networks it was attached to at creation. -/
def netMembership (id : String) (initial : List String) (calls : List Call) : List String :=
  calls.foldl (applyNetCall id) initial

/-- Daemon and auth oracle for the Staleness Detector.  `encodedAuth`
models the registry auth resolution (`EncodedAuth`), `imagePull` takes the
image reference and the encoded auth ("" meaning anonymous) and yields a
response stream handle, `readAll` the outcome of draining that stream,
and `imageInspect` yields the image id (`ImageInspect.ID`). -/
structure StaleApi where
  encodedAuth : String → Except Err String
  imagePull : String → String → Except Err Nat
  readAll : Nat → Option Err
  imageInspect : String → Except Err String

/-- Embedding of `IsContainerStale` (client.go:194).  The Go result pair
`(bool, error)` becomes `Bool × Option Err`; the code returns `false`
together with every error.  When pulling is enabled the auth and pull
errors are returned, the drain error of the pull response is discarded,
and in every case the freshly inspected image id is compared with the id
captured in the snapshot. -/
def IsContainerStale (api : StaleApi) (pullImages : Bool) (c : Container) :
    (Bool × Option Err) × List Call :=
  let imageName := c.imageName
  let inspectStep : List Call → (Bool × Option Err) × List Call := fun calls =>
    match api.imageInspect imageName with
    | .error e => ((false, some e), calls ++ [Call.imageInspect imageName])
    | .ok newID =>
        ((decide ¬(newID = c.imageID), none), calls ++ [Call.imageInspect imageName])
  if pullImages then
    match api.encodedAuth imageName with
    | .error e => ((false, some e), [])
    | .ok auth =>
      match api.imagePull imageName auth with
      | .error e => ((false, some e), [Call.imagePull imageName auth])
      | .ok response =>
        let _ := api.readAll response
        inspectStep [Call.imagePull imageName auth]
  else
    inspectStep []

/-- Daemon oracle for the Command Executor.  `execCreate` yields the exec
session id, `execAttach` a response stream handle, `readFrom` the output
read from it, and `execInspect` the exit code of the session. -/
structure ExecApi where
  execCreate : String → List String → Except Err String
  execAttach : String → Except Err Nat
  execStart : String → Option Err
  readFrom : Nat → Except Err String
  execInspect : String → Except Err Int

/-- Embedding of `ExecuteCommand` (client.go:239).  The exec session is
created with the command wrapped as `sh -c command`.  Attach and read
failures are only logged; the inspected exit code is only logged; the
error return comes only from the create, start and inspect calls. -/
def ExecuteCommand (api : ExecApi) (containerID command : String) : Option Err × List Call :=
  match api.execCreate containerID ["sh", "-c", command] with
  | .error e => (some e, [Call.execCreate containerID])
  | .ok execID =>
    let attach := api.execAttach execID
    match api.execStart execID with
    | some e => (some e, [Call.execCreate containerID, Call.execAttach execID,
        Call.execStart execID])
    | none =>
      let execOutput : String :=
        match attach with
        | .error _ => ""
        | .ok response =>
          match api.readFrom response with
          | .error _ => ""
          | .ok out => out.trim
      let _ := execOutput
      let trace := [Call.execCreate containerID, Call.execAttach execID,
        Call.execStart execID, Call.execInspect execID]
      match api.execInspect execID with
      | .error e => (some e, trace)
      | .ok _ => (none, trace)

/-! Concrete sample inputs used by the witness theorems. -/

/-- Sample container used as concrete input. -/
def sampleContainer : Container :=
  { id := "c1", name := "web", stopSignal := "", autoRemove := false
  , networkMode := "bridge"
  , networks := [("netA", ⟨["a"], "10.0.0.2"⟩), ("netB", ⟨[], "10.0.0.3"⟩)]
  , imageName := "repo/web:latest", imageID := "sha256:aaa" }

/-- Sample staleness oracle: anonymous auth, successful pull, fresh image
id `sha256:bbb`. -/
def staleApiNew : StaleApi :=
  { encodedAuth := fun _ => .ok ""
  , imagePull := fun _ _ => .ok 0
  , readAll := fun _ => none
  , imageInspect := fun _ => .ok "sha256:bbb" }

/-- Sample staleness oracle whose auth resolution fails. -/
def staleApiAuthFail : StaleApi :=
  { encodedAuth := fun _ => .error (Err.generic 7)
  , imagePull := fun _ _ => .ok 0
  , readAll := fun _ => none
  , imageInspect := fun _ => .ok "sha256:bbb" }

/-- Sample exec oracle: the session is created, started and inspected
successfully, with exit code 3 and output "ok". -/
def execApiCode3 : ExecApi :=
  { execCreate := fun _ _ => .ok "e1"
  , execAttach := fun _ => .ok 0
  , execStart := fun _ => none
  , readFrom := fun _ => .ok "ok"
  , execInspect := fun _ => .ok 3 }

/-- Sample recreation oracle where every call succeeds and the created
container gets id "new1". -/
def startApiOk : StartApi :=
  { containerCreate := fun _ _ => .ok "new1"
  , networkDisconnect := fun _ _ _ => none
  , networkConnect := fun _ _ _ => none
  , containerStart := fun _ => none }

/-- Sample container running in host network mode. -/
def hostContainer : Container := { sampleContainer with networkMode := "host" }

/-- Sample auto-remove container. -/
def autoRemoveContainer : Container := { sampleContainer with autoRemove := true }

/-- Predicate singling out the remove calls of a trace. -/
def isRemoveCall : Call → Bool
  | Call.containerRemove _ _ _ => true
  | _ => false

/-- Sample shutdown oracle: kill and remove succeed, the container is
observed running at instants 0 and 1 and gone (not-found) from instant 2
on. -/
def stopApiGoneLater : StopApi :=
  { containerKill := fun _ _ => none
  , containerRemove := fun _ _ _ => none
  , containerInspect := fun t _ => if t < 2 then .ok true else .error Err.notFound }

/-- Sample shutdown oracle for an already-removed container: every call
about it reports not-found, as the daemon does for a container that no
longer exists. -/
def stopApiGone : StopApi :=
  { containerKill := fun _ _ => some Err.notFound
  , containerRemove := fun _ _ _ => some Err.notFound
  , containerInspect := fun _ _ => .error Err.notFound }

/-- Sample shutdown oracle whose kill is tolerated while every inspect
reports not-found. -/
def stopApiKillOkGone : StopApi :=
  { containerKill := fun _ _ => none
  , containerRemove := fun _ _ _ => some Err.notFound
  , containerInspect := fun _ _ => .error Err.notFound }

/-- C1: with the fresh image inspection succeeding (and, when pulling is
enabled, auth resolution and the pull succeeding), `IsContainerStale`
returns (true, nil) exactly when the freshly inspected image id differs
from the id captured in the snapshot imageInfo, and (false, nil) when they
are equal; the comparison outcome is the same whether pulling is enabled
or disabled, since `pull` is arbitrary here. -/
theorem isContainerStale_comparison (api : StaleApi) (pull : Bool) (c : Container)
    (a : String) (r : Nat) (newID : String)
    (hAuth : api.encodedAuth c.imageName = .ok a)
    (hPull : api.imagePull c.imageName a = .ok r)
    (hIns : api.imageInspect c.imageName = .ok newID) :
    ((IsContainerStale api pull c).1 = (true, none) ↔ ¬(newID = c.imageID)) ∧
    ((IsContainerStale api pull c).1 = (false, none) ↔ newID = c.imageID) := by
  cases pull <;>
    simp only [IsContainerStale, hAuth, hPull, hIns] <;>
    by_cases h : newID = c.imageID <;>
    simp [h]

/-- Witness for C1 at a concrete oracle and container. -/
theorem isContainerStale_comparison_witness :
    staleApiNew.imageInspect sampleContainer.imageName = .ok "sha256:bbb" ∧
    ((IsContainerStale staleApiNew true sampleContainer).1 = (true, none) ↔
      ¬("sha256:bbb" = sampleContainer.imageID)) :=
  ⟨rfl, (isContainerStale_comparison staleApiNew true sampleContainer "" 0 "sha256:bbb"
    rfl rfl rfl).1⟩

/-- C9: when pulling is enabled, a failure to resolve registry auth makes
`IsContainerStale` return that error with staleness false, and no pull
(nor any other daemon call) is issued. -/
theorem isContainerStale_auth_error (api : StaleApi) (c : Container) (e : Err)
    (hAuth : api.encodedAuth c.imageName = .error e) :
    IsContainerStale api true c = ((false, some e), []) := by
  simp [IsContainerStale, hAuth]

/-- Witness for C9 at a concrete oracle and container. -/
theorem isContainerStale_auth_error_witness :
    staleApiAuthFail.encodedAuth sampleContainer.imageName = .error (Err.generic 7) ∧
    IsContainerStale staleApiAuthFail true sampleContainer = ((false, some (Err.generic 7)), []) :=
  ⟨rfl, isContainerStale_auth_error staleApiAuthFail sampleContainer (Err.generic 7) rfl⟩

/-- C10: when pulling is enabled and the pull succeeds, the result of
draining the pull response stream is irrelevant: replacing the drain
oracle by any function (in particular an always-failing one) leaves the
result unchanged, the function proceeds to inspect the image, and the
returned error is the inspection error or nil, never the drain error. -/
theorem isContainerStale_drain_discarded (api : StaleApi) (c : Container)
    (f : Nat → Option Err) (a : String) (r : Nat)
    (hAuth : api.encodedAuth c.imageName = .ok a)
    (hPull : api.imagePull c.imageName a = .ok r) :
    IsContainerStale { api with readAll := f } true c = IsContainerStale api true c ∧
    (IsContainerStale api true c).2 =
      [Call.imagePull c.imageName a, Call.imageInspect c.imageName] ∧
    (IsContainerStale api true c).1.2 =
      (match api.imageInspect c.imageName with
       | .error e => some e
       | .ok _ => none) := by
  cases hIns : api.imageInspect c.imageName <;>
    simp [IsContainerStale, hAuth, hPull, hIns]

/-- Witness for C10 at a concrete oracle and container, with an
always-failing drain. -/
theorem isContainerStale_drain_discarded_witness :
    staleApiNew.imagePull sampleContainer.imageName "" = .ok 0 ∧
    IsContainerStale { staleApiNew with readAll := fun _ => some (Err.generic 3) } true
        sampleContainer = IsContainerStale staleApiNew true sampleContainer :=
  ⟨rfl, (isContainerStale_drain_discarded staleApiNew sampleContainer
    (fun _ => some (Err.generic 3)) "" 0 rfl rfl).1⟩

/-- C5: `ExecuteCommand` returns nil whenever the create, start and
inspect calls succeed, whatever the inspected exit code (in particular a
nonzero one); and an error return can only be the error of the create,
start or inspect call. -/
theorem executeCommand_advisory_exit (api : ExecApi) (cid cmd : String) :
    (∀ execID code, api.execCreate cid ["sh", "-c", cmd] = .ok execID →
        api.execStart execID = none → api.execInspect execID = .ok code →
        (ExecuteCommand api cid cmd).1 = none) ∧
    (∀ e, (ExecuteCommand api cid cmd).1 = some e →
        api.execCreate cid ["sh", "-c", cmd] = .error e ∨
        ∃ execID, api.execCreate cid ["sh", "-c", cmd] = .ok execID ∧
          (api.execStart execID = some e ∨ api.execInspect execID = .error e)) := by
  constructor
  · intro execID code hC hS hI
    simp [ExecuteCommand, hC, hS, hI]
  · intro e
    cases hC : api.execCreate cid ["sh", "-c", cmd] with
    | error e0 =>
      intro he
      simp [ExecuteCommand, hC] at he
      subst he
      exact Or.inl rfl
    | ok execID =>
      cases hS : api.execStart execID with
      | some e0 =>
        intro he
        simp [ExecuteCommand, hC, hS] at he
        subst he
        exact Or.inr ⟨execID, rfl, Or.inl hS⟩
      | none =>
        cases hI : api.execInspect execID with
        | error e0 =>
          intro he
          simp [ExecuteCommand, hC, hS, hI] at he
          subst he
          exact Or.inr ⟨execID, rfl, Or.inr hI⟩
        | ok code =>
          intro he
          simp [ExecuteCommand, hC, hS, hI] at he

/-- Witness for C5: a command whose exec session exits with code 3 still
yields a nil return. -/
theorem executeCommand_advisory_exit_witness :
    execApiCode3.execInspect "e1" = .ok 3 ∧
    (ExecuteCommand execApiCode3 "c1" "echo ok").1 = none :=
  ⟨rfl, (executeCommand_advisory_exit execApiCode3 "c1" "echo ok").1 "e1" 3 rfl rfl rfl⟩

/-- C7: for a container in host network mode, every call in the
`StartContainer` trace is a create or a start call; in particular no
network disconnect or connect call is issued. -/
theorem startContainer_host_mode_frame (api : StartApi) (c : Container)
    (hHost : isHostMode c = true) :
    ∀ call ∈ (StartContainer api c).2,
      (∃ n ns, call = Call.containerCreate n ns) ∨ ∃ i, call = Call.containerStart i := by
  intro call hcall
  cases hC : api.containerCreate c.name (simpleNetworkConfig c.networks) with
  | error e =>
    simp [StartContainer, hC] at hcall
    exact Or.inl ⟨_, _, hcall⟩
  | ok newID =>
    cases hS : api.containerStart newID with
    | some e =>
      simp [StartContainer, hC, hHost, hS] at hcall
      rcases hcall with h | h
      · exact Or.inl ⟨_, _, h⟩
      · exact Or.inr ⟨_, h⟩
    | none =>
      simp [StartContainer, hC, hHost, hS] at hcall
      rcases hcall with h | h
      · exact Or.inl ⟨_, _, h⟩
      · exact Or.inr ⟨_, h⟩

/-- Witness for C7 at a concrete oracle and host-mode container. -/
theorem startContainer_host_mode_frame_witness :
    isHostMode hostContainer = true ∧
    ∀ call ∈ (StartContainer startApiOk hostContainer).2,
      (∃ n ns, call = Call.containerCreate n ns) ∨ ∃ i, call = Call.containerStart i :=
  ⟨rfl, startContainer_host_mode_frame startApiOk hostContainer rfl⟩

/-- When every disconnect call succeeds, `disconnectAll` succeeds and its
trace is one disconnect call per network of the config. -/
theorem disconnectAll_ok (api : StartApi) (newID : String)
    (h : ∀ k cid f, api.networkDisconnect k cid f = none) :
    ∀ ns, disconnectAll api newID ns =
      (none, ns.map fun p => Call.networkDisconnect p.1 newID true) := by
  intro ns
  induction ns with
  | nil => rfl
  | cons p rest ih =>
    obtain ⟨k, v⟩ := p
    simp [disconnectAll, h, ih]

/-- When every connect call succeeds, `connectAll` succeeds and its trace
is one connect call per network of the config. -/
theorem connectAll_ok (api : StartApi) (newID : String)
    (h : ∀ k cid v, api.networkConnect k cid v = none) :
    ∀ ns, connectAll api newID ns =
      (none, ns.map fun p => Call.networkConnect p.1 newID p.2) := by
  intro ns
  induction ns with
  | nil => rfl
  | cons p rest ih =>
    obtain ⟨k, v⟩ := p
    simp [connectAll, h, ih]

/-- Folding the connect calls of a config whose keys are fresh for the
accumulator and mutually distinct appends exactly those keys. -/
theorem netMembership_connect_calls (id : String) :
    ∀ (ns : List (String × EndpointSettings)) (acc : List String),
      (∀ k, k ∈ ns.map Prod.fst → k ∉ acc) → (ns.map Prod.fst).Nodup →
      List.foldl (applyNetCall id) acc (ns.map fun p => Call.networkConnect p.1 id p.2) =
        acc ++ ns.map Prod.fst := by
  intro ns
  induction ns with
  | nil => intro acc _ _; simp [netMembership]
  | cons p rest ih =>
    intro acc hfresh hnd
    obtain ⟨k, v⟩ := p
    have hk : k ∉ acc := hfresh k (by simp)
    have hstep : applyNetCall id acc (Call.networkConnect k id v) = acc ++ [k] := by
      simp [applyNetCall, hk]
    simp only [List.map_cons, List.foldl_cons, hstep]
    rw [ih (acc ++ [k]) ?fresh ?nd]
    · simp
    case fresh =>
      intro k2 hk2
      simp only [List.mem_append, List.mem_singleton]
      rintro (h2 | rfl)
      · exact hfresh k2 (by simp [hk2]) h2
      · simp only [List.map_cons, List.nodup_cons] at hnd
        exact hnd.1 hk2
    case nd =>
      simp only [List.map_cons, List.nodup_cons] at hnd
      exact hnd.2

/-- C3: for a non-host-mode container attached to a nonempty set of
networks (with distinct names), when all daemon calls succeed,
`StartContainer` passes exactly one network entry at creation time, then
force-disconnects it and reconnects every original network, so that the
final network membership of the new container is exactly the original
network name set (whatever single entry creation used, since the list
order stands for the arbitrary map iteration order). -/
theorem startContainer_network_roundtrip (api : StartApi) (c : Container) (newID : String)
    (hNotHost : isHostMode c = false)
    (hNE : c.networks ≠ [])
    (hNodup : (c.networks.map Prod.fst).Nodup)
    (hCreate : api.containerCreate c.name (simpleNetworkConfig c.networks) = .ok newID)
    (hDisc : ∀ k cid f, api.networkDisconnect k cid f = none)
    (hConn : ∀ k cid v, api.networkConnect k cid v = none)
    (hStart : api.containerStart newID = none) :
    (simpleNetworkConfig c.networks).length = 1 ∧
    (StartContainer api c).1 = (newID, none) ∧
    netMembership newID ((simpleNetworkConfig c.networks).map Prod.fst)
        (StartContainer api c).2 = c.networks.map Prod.fst ∧
    (netMembership newID ((simpleNetworkConfig c.networks).map Prod.fst)
        (StartContainer api c).2).toFinset = (c.networks.map Prod.fst).toFinset := by
  obtain ⟨p, rest, hns⟩ : ∃ p rest, c.networks = p :: rest := by
    cases h : c.networks with
    | nil => exact absurd h hNE
    | cons p rest => exact ⟨p, rest, rfl⟩
  obtain ⟨k0, v0⟩ := p
  have hsimple : simpleNetworkConfig c.networks = [(k0, v0)] := by
    rw [hns]; rfl
  rw [hsimple] at hCreate
  have htrace :
      StartContainer api c =
        ((newID, none),
          Call.containerCreate c.name [k0] ::
            Call.networkDisconnect k0 newID true ::
            ((c.networks.map fun q => Call.networkConnect q.1 newID q.2) ++
              [Call.containerStart newID])) := by
    simp [StartContainer, hCreate, hNotHost, hsimple,
      disconnectAll_ok api newID hDisc, connectAll_ok api newID hConn, hStart]
  have hm : netMembership newID ((simpleNetworkConfig c.networks).map Prod.fst)
      (StartContainer api c).2 = c.networks.map Prod.fst := by
    rw [htrace, hsimple]
    simp only [netMembership, List.map_cons, List.map_nil, List.foldl_cons,
      List.foldl_append, List.foldl_nil]
    rw [show applyNetCall newID [k0] (Call.containerCreate c.name [k0]) = [k0] from rfl]
    rw [show applyNetCall newID [k0] (Call.networkDisconnect k0 newID true) = [] from by
      simp [applyNetCall]]
    rw [netMembership_connect_calls newID c.networks [] (by simp) hNodup]
    simp [applyNetCall]
  exact ⟨by rw [hsimple]; rfl, by rw [htrace], hm, by rw [hm]⟩

/-- Witness for C3 at a concrete oracle and two-network container. -/
theorem startContainer_network_roundtrip_witness :
    sampleContainer.networks ≠ [] ∧
    ((simpleNetworkConfig sampleContainer.networks).length = 1 ∧
     (StartContainer startApiOk sampleContainer).1 = ("new1", none) ∧
     netMembership "new1" ((simpleNetworkConfig sampleContainer.networks).map Prod.fst)
        (StartContainer startApiOk sampleContainer).2 = sampleContainer.networks.map Prod.fst ∧
     (netMembership "new1" ((simpleNetworkConfig sampleContainer.networks).map Prod.fst)
        (StartContainer startApiOk sampleContainer).2).toFinset =
       (sampleContainer.networks.map Prod.fst).toFinset) :=
  ⟨by decide, startContainer_network_roundtrip startApiOk sampleContainer "new1"
    rfl (by decide) (by decide) rfl (fun _ _ _ => rfl) (fun _ _ _ => rfl) rfl⟩

/-- Every call issued by `waitForStop` is an inspect of the container. -/
theorem waitForStop_calls_inspect (api : StopApi) (c : Container) :
    ∀ fuel t, ∀ call ∈ (waitForStop api c t fuel).2.2, call = Call.containerInspect c.id := by
  intro fuel
  induction fuel with
  | zero => intro t call h; simp [waitForStop] at h
  | succ n ih =>
    intro t call h
    cases hI : api.containerInspect t c.id with
    | error e =>
      simp [waitForStop, hI] at h
      exact h
    | ok b =>
      cases b with
      | true =>
        simp [waitForStop, hI] at h
        rcases h with rfl | h
        · rfl
        · exact ih (t + 1) call h
      | false =>
        simp [waitForStop, hI] at h
        exact h

/-- The trace of `waitForStop` contains no remove call. -/
theorem waitForStop_filter_remove (api : StopApi) (c : Container) (fuel t : Nat) :
    (waitForStop api c t fuel).2.2.filter isRemoveCall = [] := by
  rw [List.filter_eq_nil_iff]
  intro a ha
  rw [waitForStop_calls_inspect api c fuel t a ha]
  simp [isRemoveCall]

/-- Characterization of a failing wait: `waitForStop` returns an error
exactly when some inspect within the window errors while every earlier
poll of the window observed the container running. -/
theorem waitForStop_some_iff (api : StopApi) (c : Container) :
    ∀ fuel t e, (waitForStop api c t fuel).1 = some e ↔
      ∃ k, k < fuel ∧ api.containerInspect (t + k) c.id = .error e ∧
        ∀ j, j < k → api.containerInspect (t + j) c.id = .ok true := by
  intro fuel
  induction fuel with
  | zero =>
    intro t e
    simp [waitForStop]
  | succ n ih =>
    intro t e
    constructor
    · intro h
      cases hI : api.containerInspect t c.id with
      | error e0 =>
        simp [waitForStop, hI] at h
        subst h
        exact ⟨0, Nat.succ_pos n, by simpa using hI,
          fun j hj => absurd hj (Nat.not_lt_zero j)⟩
      | ok b =>
        cases b with
        | true =>
          simp [waitForStop, hI] at h
          obtain ⟨k, hk, hke, hkj⟩ := (ih (t + 1) e).1 h
          refine ⟨k + 1, Nat.succ_lt_succ hk, ?_, ?_⟩
          · rw [show t + (k + 1) = t + 1 + k by omega]
            exact hke
          · intro j hj
            cases j with
            | zero => simpa using hI
            | succ j =>
              rw [show t + (j + 1) = t + 1 + j by omega]
              exact hkj j (by omega)
        | false =>
          simp [waitForStop, hI] at h
    · rintro ⟨k, hk, hke, hkj⟩
      cases hI : api.containerInspect t c.id with
      | error e0 =>
        have hk0 : k = 0 := by
          by_contra hne
          have h0 := hkj 0 (Nat.pos_of_ne_zero hne)
          rw [Nat.add_zero, hI] at h0
          exact Except.noConfusion h0
        subst hk0
        rw [Nat.add_zero, hI] at hke
        have : e0 = e := by injection hke
        subst this
        simp [waitForStop, hI]
      | ok b =>
        cases b with
        | true =>
          cases k with
          | zero =>
            rw [Nat.add_zero, hI] at hke
            exact Except.noConfusion hke
          | succ k =>
            simp only [waitForStop, hI, if_true]
            apply (ih (t + 1) e).2
            refine ⟨k, by omega, ?_, ?_⟩
            · rw [show t + 1 + k = t + (k + 1) by omega]
              exact hke
            · intro j hj
              rw [show t + 1 + j = t + (j + 1) by omega]
              exact hkj (j + 1) (by omega)
        | false =>
          cases k with
          | zero =>
            rw [Nat.add_zero, hI] at hke
            exact Except.noConfusion hke
          | succ k =>
            have h0 := hkj 0 (Nat.succ_pos k)
            rw [Nat.add_zero, hI] at h0
            have : false = true := by injection h0
            exact Bool.noConfusion this

/-- C6: `StopContainer` issues no remove call for an auto-remove
container; otherwise, once the kill call succeeded, it issues exactly one
removal, forced and with volume removal disabled. -/
theorem stopContainer_remove_policy (api : StopApi) (c : Container) (fuel : Nat) :
    (c.autoRemove = true → (StopContainer api c fuel).2.filter isRemoveCall = []) ∧
    (c.autoRemove = false →
      api.containerKill c.id
        (if c.stopSignal = "" then defaultStopSignal else c.stopSignal) = none →
      (StopContainer api c fuel).2.filter isRemoveCall =
        [Call.containerRemove c.id true false]) := by
  constructor
  · intro hA
    cases hK : api.containerKill c.id
        (if c.stopSignal = "" then defaultStopSignal else c.stopSignal) with
    | some e => simp [StopContainer, hK, isRemoveCall]
    | none =>
      cases hW2 : (waitForStop api c (waitForStop api c 0 fuel).2.1 fuel).1 <;>
        simp [StopContainer, hK, hA, hW2, List.filter_append,
          waitForStop_filter_remove, isRemoveCall]
  · intro hA hK
    cases hR : api.containerRemove c.id true false with
    | some e =>
      simp [StopContainer, hK, hA, hR, List.filter_append,
        waitForStop_filter_remove, isRemoveCall]
    | none =>
      cases hW2 : (waitForStop api c (waitForStop api c 0 fuel).2.1 fuel).1 <;>
        simp [StopContainer, hK, hA, hR, hW2, List.filter_append,
          waitForStop_filter_remove, isRemoveCall]

/-- Witness for C6 at a concrete oracle and non-auto-remove container. -/
theorem stopContainer_remove_policy_witness :
    sampleContainer.autoRemove = false ∧
    (StopContainer stopApiGoneLater sampleContainer 3).2.filter isRemoveCall =
      [Call.containerRemove sampleContainer.id true false] :=
  ⟨rfl, (stopContainer_remove_policy stopApiGoneLater sampleContainer 3).2 rfl rfl⟩

/-- C2: once the kill succeeded and the removal was requested successfully
(or skipped because of auto-remove), `StopContainer` succeeds exactly when
some inspect of the second wait window fails while every earlier poll of
that window saw the container running; and when it does not succeed its
error is the could-not-be-removed error naming the container. -/
theorem stopContainer_confirmation (api : StopApi) (c : Container) (fuel : Nat)
    (hKill : api.containerKill c.id
      (if c.stopSignal = "" then defaultStopSignal else c.stopSignal) = none)
    (hRemove : c.autoRemove = false → api.containerRemove c.id true false = none) :
    ((StopContainer api c fuel).1 = none ↔
      ∃ e k, k < fuel ∧
        api.containerInspect ((waitForStop api c 0 fuel).2.1 + k) c.id = .error e ∧
        ∀ j, j < k →
          api.containerInspect ((waitForStop api c 0 fuel).2.1 + j) c.id = .ok true) ∧
    ((StopContainer api c fuel).1 ≠ none →
      (StopContainer api c fuel).1 = some (Err.couldNotBeRemoved c.name c.id)) := by
  have hRS : (if c.autoRemove then ((none : Option Err), ([] : List Call))
      else (api.containerRemove c.id true false,
        [Call.containerRemove c.id true false])).1 = none := by
    cases hA : c.autoRemove with
    | true => simp
    | false => simp [hRemove hA]
  cases hW2 : (waitForStop api c (waitForStop api c 0 fuel).2.1 fuel).1 with
  | none =>
    constructor
    · constructor
      · intro h
        simp [StopContainer, hKill, hW2] at h
        rcases hA : c.autoRemove <;> simp [hA] at h hRS <;> simp [hRS] at h
      · rintro ⟨e, k, hk, hke, hkj⟩
        have : (waitForStop api c (waitForStop api c 0 fuel).2.1 fuel).1 = some e :=
          (waitForStop_some_iff api c fuel _ e).2 ⟨k, hk, hke, hkj⟩
        rw [hW2] at this
        exact Option.noConfusion this
    · intro _
      simp [StopContainer, hKill, hW2]
      rcases hA : c.autoRemove <;> simp [hA] at hRS ⊢ <;> simp [hRS]
  | some e0 =>
    constructor
    · constructor
      · intro _
        obtain ⟨k, hk, hke, hkj⟩ := (waitForStop_some_iff api c fuel _ e0).1 hW2
        exact ⟨e0, k, hk, hke, hkj⟩
      · intro _
        simp [StopContainer, hKill, hW2]
        rcases hA : c.autoRemove <;> simp [hA] at hRS ⊢ <;> simp [hRS, hW2]
    · intro h
      exfalso
      apply h
      simp [StopContainer, hKill, hW2]
      rcases hA : c.autoRemove <;> simp [hA] at hRS ⊢ <;> simp [hRS, hW2]

/-- Witness for C2 at a concrete oracle: the container disappears during
the second wait, so the stop succeeds. -/
theorem stopContainer_confirmation_witness :
    stopApiGoneLater.containerKill sampleContainer.id "SIGTERM" = none ∧
    (((StopContainer stopApiGoneLater sampleContainer 3).1 = none ↔
      ∃ e k, k < 3 ∧
        stopApiGoneLater.containerInspect
          ((waitForStop stopApiGoneLater sampleContainer 0 3).2.1 + k)
          sampleContainer.id = .error e ∧
        ∀ j, j < k →
          stopApiGoneLater.containerInspect
            ((waitForStop stopApiGoneLater sampleContainer 0 3).2.1 + j)
            sampleContainer.id = .ok true) ∧
     ((StopContainer stopApiGoneLater sampleContainer 3).1 ≠ none →
      (StopContainer stopApiGoneLater sampleContainer 3).1 =
        some (Err.couldNotBeRemoved sampleContainer.name sampleContainer.id))) :=
  ⟨rfl, stopContainer_confirmation stopApiGoneLater sampleContainer 3 rfl (fun _ => rfl)⟩

/-- Counterexample to C4 as stated: a not-found inspection error is a wait
failure too, so the waits do not fail only for reasons other than
not-found. -/
theorem stopContainer_wait_notfound_cex :
    (waitForStop stopApiGone sampleContainer 0 3).1 = some Err.notFound ∧
    (waitForStop stopApiGone sampleContainer 0 3).1 ≠ none :=
  ⟨rfl, by decide⟩

/-- C4 (amended): every kill error aborts `StopContainer` immediately with
only the kill call issued; every remove error (after a successful kill, on
a non-auto-remove container) is returned; and a wait fails exactly when an
inspect of its window errors, for any reason including not-found, before
the container is seen not running or the timeout elapses. -/
theorem stopContainer_error_propagation (api : StopApi) (c : Container) (fuel : Nat) :
    (∀ e, api.containerKill c.id
        (if c.stopSignal = "" then defaultStopSignal else c.stopSignal) = some e →
      StopContainer api c fuel =
        (some e, [Call.containerKill c.id
          (if c.stopSignal = "" then defaultStopSignal else c.stopSignal)])) ∧
    (c.autoRemove = false →
      api.containerKill c.id
        (if c.stopSignal = "" then defaultStopSignal else c.stopSignal) = none →
      ∀ e, api.containerRemove c.id true false = some e →
        (StopContainer api c fuel).1 = some e) ∧
    (∀ t f e, (waitForStop api c t f).1 = some e ↔
      ∃ k, k < f ∧ api.containerInspect (t + k) c.id = .error e ∧
        ∀ j, j < k → api.containerInspect (t + j) c.id = .ok true) := by
  refine ⟨?_, ?_, fun t f e => waitForStop_some_iff api c f t e⟩
  · intro e hK
    simp [StopContainer, hK]
  · intro hA hK e hR
    simp [StopContainer, hK, hA, hR]

/-- Witness for the amended C4: a failing kill call is propagated as the
result with no further call issued. -/
theorem stopContainer_error_propagation_witness :
    stopApiGone.containerKill sampleContainer.id "SIGTERM" = some Err.notFound ∧
    StopContainer stopApiGone sampleContainer 2 =
      (some Err.notFound, [Call.containerKill sampleContainer.id "SIGTERM"]) :=
  ⟨rfl, (stopContainer_error_propagation stopApiGone sampleContainer 2).1 Err.notFound rfl⟩

/-- Counterexample to C8 as stated: against a daemon for which the
already-removed container yields not-found on every call, the kill call
itself fails and `StopContainer` returns that error instead of
succeeding. -/
theorem stopContainer_already_removed_cex :
    (StopContainer stopApiGone sampleContainer 2).1 = some Err.notFound ∧
    (StopContainer stopApiGone sampleContainer 2).1 ≠ none :=
  ⟨rfl, by decide⟩

/-- C8 (amended): when the kill signal delivery succeeds, the container is
auto-remove, and every inspect reports not-found, `StopContainer` yields
success with no remove call issued, because the second wait observes
not-found. -/
theorem stopContainer_idempotent_autoremove (api : StopApi) (c : Container) (fuel : Nat)
    (hKill : api.containerKill c.id
      (if c.stopSignal = "" then defaultStopSignal else c.stopSignal) = none)
    (hAuto : c.autoRemove = true)
    (hGone : ∀ t, api.containerInspect t c.id = .error Err.notFound)
    (hFuel : 0 < fuel) :
    (StopContainer api c fuel).1 = none ∧
    (StopContainer api c fuel).2.filter isRemoveCall = [] := by
  have hW2 : (waitForStop api c (waitForStop api c 0 fuel).2.1 fuel).1 =
      some Err.notFound := by
    cases fuel with
    | zero => omega
    | succ n => simp [waitForStop, hGone]
  refine ⟨?_, (stopContainer_remove_policy api c fuel).1 hAuto⟩
  simp [StopContainer, hKill, hAuto, hW2]

/-- Witness for the amended C8 at a concrete oracle and auto-remove
container. -/
theorem stopContainer_idempotent_autoremove_witness :
    autoRemoveContainer.autoRemove = true ∧
    (StopContainer stopApiKillOkGone autoRemoveContainer 2).1 = none ∧
    (StopContainer stopApiKillOkGone autoRemoveContainer 2).2.filter isRemoveCall = [] :=
  ⟨rfl, stopContainer_idempotent_autoremove stopApiKillOkGone autoRemoveContainer 2
    rfl rfl (fun _ => rfl) (by decide)⟩

end Watchtower
